import Mathlib

/-!
Shallow embedding of `extra/pool/pool.go` from the radix repository.

The Go pool stores idle `*redis.Client` handles in a buffered channel of
capacity `size`.  Sequentially, a `select` with a `default` branch is a
non-blocking try-receive / try-send on that channel: receive succeeds iff
the buffer is non-empty, send succeeds iff fewer than `capacity` elements
are buffered (a zero-capacity channel send never succeeds sequentially,
since no receiver can be waiting).  We model the channel as a FIFO list
(`buf`), a client handle as a numeric id, and the Go pointer
`*redis.Client` as `Option Client` (`none` is the nil pointer).

Side effects are made explicit: operations that may call `Close()` return
the list of connections they closed, and `Get` reports how many times it
invoked the dial factory.  The dial factory `redis.Dial` is external to
the repository, so it enters the model as a parameter: a function from
(network, addr) to `Except Err Client` (Go's `(conn, err)` pair, where a
failed dial yields a nil conn).
-/

namespace pool

/-- A live redis client handle, identified by a numeric id. -/
abbrev Client := Nat

/-- A Go `*redis.Client` pointer: `none` is the nil pointer. -/
abbrev Conn := Option Client

/-- An error value.  `CarefullyPut` classifies errors by the type assertion
`(*potentialErr).(*redis.CmdError)`: `cmdError` models a `*redis.CmdError`
(command-level), `connError` models every other error value
(connection-level, including dial errors). -/
inductive Err where
  | cmdError (msg : String)
  | connError (msg : String)
deriving DecidableEq, Repr

/-- The type assertion `(*potentialErr).(*redis.CmdError)` from
`CarefullyPut`. -/
def Err.isCmdError : Err → Bool
  | .cmdError _ => true
  | .connError _ => false

/-- The `Pool` struct: `Network`, `Addr`, and the buffered channel
`Pool chan *redis.Client`, split into its fixed capacity and its current
FIFO contents. -/
structure Pool where
  Network : String
  Addr : String
  capacity : Nat
  buf : List Conn
deriving DecidableEq, Repr

/-- `func (p *Pool) Put(conn *redis.Client)`: non-blocking send of `conn`
into the channel; if the channel is full, `conn.Close()` instead.  Returns
the updated pool and the list of connections closed (empty or `[conn]`). -/
def Pool.Put (p : Pool) (conn : Conn) : Pool × List Conn :=
  if p.buf.length < p.capacity then
    ({ p with buf := p.buf ++ [conn] }, [])
  else
    (p, [conn])

/-- `func (p *Pool) CarefullyPut(conn *redis.Client, potentialErr *error)`:
if there is an error and it is not a `*redis.CmdError`, do nothing;
otherwise delegate to `Put`. -/
def Pool.CarefullyPut (p : Pool) (conn : Conn) (potentialErr : Option Err) :
    Pool × List Conn :=
  match potentialErr with
  | some e => if e.isCmdError then p.Put conn else (p, [])
  | none => p.Put conn

/-- Everything `Get` produces: the `(conn, err)` pair returned to the
caller, the pool afterwards, the connections closed along the way, and the
number of times the dial factory was invoked. -/
structure GetResult where
  conn : Conn
  err : Option Err
  pool : Pool
  closed : List Conn
  dials : Nat
deriving DecidableEq, Repr

/-- `func (p *Pool) Get() (*redis.Client, error)`: non-blocking receive
from the channel; on success return the received conn with a nil error.
Otherwise call `redis.Dial(p.Network, p.Addr)`, route the result through
`CarefullyPut(conn, &err)`, and return `(conn, err)` as dialed.  `dial` is
the external `redis.Dial` factory. -/
def Pool.Get (p : Pool) (dial : String → String → Except Err Client) :
    GetResult :=
  match p.buf with
  | c :: rest =>
      { conn := c, err := none, pool := { p with buf := rest },
        closed := [], dials := 0 }
  | [] =>
      match dial p.Network p.Addr with
      | .ok c =>
          let pc := p.CarefullyPut (some c) none
          { conn := some c, err := none, pool := pc.1, closed := pc.2,
            dials := 1 }
      | .error e =>
          let pc := p.CarefullyPut none (some e)
          { conn := none, err := some e, pool := pc.1, closed := pc.2,
            dials := 1 }

/-- `func (p *Pool) Empty()`: loop of non-blocking receives, closing each
received connection, until the channel reports empty.  Returns the drained
pool and the closed connections in the order they were received. -/
def Pool.Empty (p : Pool) : Pool × List Conn :=
  ({ p with buf := [] }, p.buf)

/-- The eager-dial loop of `NewPool`: dial `n` connections, the `i`-th via
`dials i`; stop at the first error.  Models
`for i := range pool { if pool[i], err = redis.Dial(...); err != nil ... }`. -/
def dialLoop (dials : Nat → Except Err Client) : Nat → Nat → Except Err (List Client)
  | _, 0 => .ok []
  | i, n + 1 =>
      match dials i with
      | .error e => .error e
      | .ok c =>
          match dialLoop dials (i + 1) n with
          | .error e => .error e
          | .ok cs => .ok (c :: cs)

/-- `func NewPool(network, addr string, size int) (*Pool, error)`: dial
`size` connections eagerly (the `i`-th dial's outcome is `dials i`); on
any failure return that error and no pool; on success return a pool whose
channel of capacity `size` is pre-loaded with the dialed connections. -/
def NewPool (network addr : String) (size : Nat)
    (dials : Nat → Except Err Client) : Except Err Pool :=
  match dialLoop dials 0 size with
  | .error e => .error e
  | .ok cs =>
      .ok { Network := network, Addr := addr, capacity := size,
            buf := cs.map some }

/-- `func NewOrEmptyPool(network, addr string, size int) *Pool`: call
`NewPool`; on error return a pool of the same network/addr/size with an
empty buffer. -/
def NewOrEmptyPool (network addr : String) (size : Nat)
    (dials : Nat → Except Err Client) : Pool :=
  match NewPool network addr size dials with
  | .ok p => p
  | .error _ =>
      { Network := network, Addr := addr, capacity := size, buf := [] }

/-- One pool operation of a sequential history: `acquire` carries the
external dial factory consulted if the buffer is empty. -/
inductive Op where
  | acquire (dial : String → String → Except Err Client)
  | release (conn : Conn)
  | releaseChecked (conn : Conn) (err : Option Err)
  | emptyPool

/-- The pool state after one operation. -/
def step (p : Pool) : Op → Pool
  | .acquire d => (p.Get d).pool
  | .release c => (p.Put c).1
  | .releaseChecked c e => (p.CarefullyPut c e).1
  | .emptyPool => p.Empty.1

/-- The pool state after a sequence of operations. -/
def run (p : Pool) : List Op → Pool
  | [] => p
  | op :: ops => run (step p op) ops

/-- Helper: `Put` never grows the buffer past the capacity. -/
theorem Put_length_le (p : Pool) (c : Conn) (h : p.buf.length ≤ p.capacity) :
    (p.Put c).1.buf.length ≤ p.capacity := by
  unfold Pool.Put
  split <;> simp_all <;> omega

/-- Helper: `CarefullyPut` never grows the buffer past the capacity. -/
theorem CarefullyPut_length_le (p : Pool) (c : Conn) (e : Option Err)
    (h : p.buf.length ≤ p.capacity) :
    (p.CarefullyPut c e).1.buf.length ≤ p.capacity := by
  unfold Pool.CarefullyPut
  cases e with
  | none => exact Put_length_le p c h
  | some e =>
      simp only
      split
      · exact Put_length_le p c h
      · exact h

/-- Helper: no operation changes the channel capacity. -/
theorem step_capacity (p : Pool) (op : Op) : (step p op).capacity = p.capacity := by
  cases op with
  | acquire d =>
      simp only [step, Pool.Get]
      cases hb : p.buf with
      | cons c rest => rfl
      | nil =>
          cases dial : d p.Network p.Addr with
          | ok c =>
              simp only [Pool.CarefullyPut, Pool.Put]
              split <;> rfl
          | error e =>
              simp only [Pool.CarefullyPut]
              cases e <;> simp [Err.isCmdError, Pool.Put] <;> split <;> rfl
  | release c =>
      simp only [step, Pool.Put]
      split <;> rfl
  | releaseChecked c e =>
      simp only [step, Pool.CarefullyPut]
      cases e with
      | none => simp only [Pool.Put]; split <;> rfl
      | some e =>
          simp only
          split
          · simp only [Pool.Put]; split <;> rfl
          · rfl
  | emptyPool => rfl

/-- Helper: one step preserves the buffer-within-capacity invariant. -/
theorem step_length_le (p : Pool) (op : Op) (h : p.buf.length ≤ p.capacity) :
    (step p op).buf.length ≤ (step p op).capacity := by
  rw [step_capacity]
  cases op with
  | acquire d =>
      simp only [step, Pool.Get]
      cases hb : p.buf with
      | cons c rest =>
          simp only
          have : p.buf.length = rest.length + 1 := by rw [hb]; simp
          omega
      | nil =>
          cases dial : d p.Network p.Addr with
          | ok c => exact CarefullyPut_length_le p (some c) none h
          | error e => exact CarefullyPut_length_le p none (some e) h
  | release c => exact Put_length_le p c h
  | releaseChecked c e => exact CarefullyPut_length_le p c e h
  | emptyPool => simpa [step, Pool.Empty] using Nat.zero_le _

/-- Helper: the invariant `buf.length ≤ capacity` is preserved by any
sequence of operations, and the capacity never changes. -/
theorem run_length_le (ops : List Op) (p : Pool) (h : p.buf.length ≤ p.capacity) :
    (run p ops).buf.length ≤ (run p ops).capacity ∧ (run p ops).capacity = p.capacity := by
  induction ops generalizing p with
  | nil => exact ⟨h, rfl⟩
  | cons op ops ih =>
      have h1 := step_length_le p op h
      have h2 := step_capacity p op
      have := ih (step p op) h1
      simp only [run]
      exact ⟨this.1, this.2.trans h2⟩

/-- Helper: `dialLoop` succeeding with `n` requested dials yields exactly
`n` clients. -/
theorem dialLoop_ok_length (dials : Nat → Except Err Client) (n i : Nat)
    (cs : List Client) (h : dialLoop dials i n = .ok cs) : cs.length = n := by
  induction n generalizing i cs with
  | zero => simp only [dialLoop] at h; cases h; rfl
  | succ n ih =>
      simp only [dialLoop] at h
      cases hd : dials i with
      | error e => rw [hd] at h; exact absurd h (by simp)
      | ok c =>
          rw [hd] at h
          cases hrec : dialLoop dials (i + 1) n with
          | error e => rw [hrec] at h; exact absurd h (by simp)
          | ok cs' =>
              rw [hrec] at h
              cases h
              simp [ih (i + 1) cs' hrec]

/-- Helper: a pool successfully built by `NewPool` has `size` buffered
connections, capacity `size`, and the given network and address. -/
theorem NewPool_ok_spec (network addr : String) (size : Nat)
    (dials : Nat → Except Err Client) (p : Pool)
    (h : NewPool network addr size dials = .ok p) :
    p.buf.length = size ∧ p.capacity = size ∧
    p.Network = network ∧ p.Addr = addr := by
  unfold NewPool at h
  cases hd : dialLoop dials 0 size with
  | error e => rw [hd] at h; exact absurd h (by simp)
  | ok cs =>
      rw [hd] at h
      cases h
      exact ⟨by simp [dialLoop_ok_length dials size 0 cs hd], rfl, rfl, rfl⟩

/-- Helper: `NewOrEmptyPool` always yields a pool of capacity `size`, with
at most `size` buffered connections, and the given network and address. -/
theorem NewOrEmptyPool_spec (network addr : String) (size : Nat)
    (dials : Nat → Except Err Client) :
    (NewOrEmptyPool network addr size dials).buf.length ≤ size ∧
    (NewOrEmptyPool network addr size dials).capacity = size := by
  unfold NewOrEmptyPool
  cases hN : NewPool network addr size dials with
  | ok q =>
      have := NewPool_ok_spec network addr size dials q hN
      simp [this.1, this.2.1]
  | error e => simp

/-- Helper: first-failure behaviour of the eager dial loop: if the `i`-th
dial fails with `e` and every earlier dial succeeds, the loop returns `e`. -/
theorem dialLoop_error_of (dials : Nat → Except Err Client) (e : Err) :
    ∀ (n start i : Nat), start ≤ i → i < start + n → dials i = .error e →
      (∀ j, start ≤ j → j < i → ∃ c, dials j = .ok c) →
      dialLoop dials start n = .error e := by
  intro n
  induction n with
  | zero => intro start i h1 h2 _ _; omega
  | succ n ih =>
      intro start i h1 h2 hfail hok
      by_cases hsi : i = start
      · subst hsi
        simp [dialLoop, hfail]
      · obtain ⟨c, hc⟩ := hok start le_rfl (by omega)
        have hrec := ih (start + 1) i (by omega) (by omega) hfail
          (fun j hj1 hj2 => hok j (by omega) hj2)
        simp [dialLoop, hc, hrec]

/-- C1: the spec invariant says a connection returned by `Acquire` is never
simultaneously in the idle buffer.  The code violates it: on an empty
buffer of capacity 1, `Get` dials a fresh connection, `CarefullyPut` with
the nil error buffers it, and `Get` still returns it to the caller — the
same handle is then owned by the caller and by the idle buffer at once.
This theorem evaluates the code at that failing input. -/
theorem C1_fresh_dial_double_owned :
    (((Pool.mk "tcp" "localhost:6379" 1 []).Get fun _ _ => Except.ok 7).conn
        = some 7) ∧
    some 7 ∈
      (((Pool.mk "tcp" "localhost:6379" 1 []).Get fun _ _ => Except.ok 7)).pool.buf := by
  constructor
  · rfl
  · simp [Pool.Get, Pool.CarefullyPut, Pool.Put]

/-- C2: starting from any pool built by `NewPool` (on success) or
`NewOrEmptyPool` with capacity `size`, the idle buffer never holds more
than `size` connections under any sequence of
Acquire/Release/ReleaseChecked/Empty operations. -/
theorem C2_idle_never_exceeds_size (network addr : String) (size : Nat)
    (dials : Nat → Except Err Client) (p : Pool)
    (h : NewPool network addr size dials = Except.ok p ∨
         p = NewOrEmptyPool network addr size dials)
    (ops : List Op) : (run p ops).buf.length ≤ size := by
  have hlen : p.buf.length ≤ p.capacity ∧ p.capacity = size := by
    rcases h with h | h
    · have := NewPool_ok_spec network addr size dials p h
      exact ⟨(this.1.trans this.2.1.symm).le, this.2.1⟩
    · subst h
      have := NewOrEmptyPool_spec network addr size dials
      exact ⟨le_of_le_of_eq this.1 this.2.symm, this.2⟩
  have hrun := run_length_le ops p hlen.1
  calc (run p ops).buf.length ≤ (run p ops).capacity := hrun.1
    _ = p.capacity := hrun.2
    _ = size := hlen.2

/-- C2 witness: a concrete size-2 pool, with releases overflowing it. -/
theorem C2_idle_never_exceeds_size_witness :
    (Pool.mk "tcp" "a" 2 [] =
      NewOrEmptyPool "tcp" "a" 2 fun _ => Except.error (Err.connError "down")) ∧
    (run (Pool.mk "tcp" "a" 2 [])
      [Op.release (some 1), Op.release (some 2), Op.release (some 3),
       Op.releaseChecked (some 4) none]).buf.length ≤ 2 :=
  ⟨rfl, C2_idle_never_exceeds_size "tcp" "a" 2
    (fun _ => Except.error (Err.connError "down")) (Pool.mk "tcp" "a" 2 [])
    (Or.inr rfl) _⟩

/-- C3: `Get` on an empty buffer dials exactly once, routes the dialed
result through `CarefullyPut`, and returns the dial result to the caller:
the connection with nil error on success, the nil connection with the dial
error on failure. -/
theorem C3_acquire_empty_dials_once (p : Pool)
    (dial : String → String → Except Err Client) (h : p.buf = []) :
    (p.Get dial).dials = 1 ∧
    ((p.Get dial).conn, (p.Get dial).err) =
      (match dial p.Network p.Addr with
       | .ok c => (some c, none)
       | .error e => (none, some e)) ∧
    ((p.Get dial).pool, (p.Get dial).closed) =
      (match dial p.Network p.Addr with
       | .ok c => p.CarefullyPut (some c) none
       | .error e => p.CarefullyPut none (some e)) := by
  cases hd : dial p.Network p.Addr with
  | ok c => simp [Pool.Get, h, hd]
  | error e => simp [Pool.Get, h, hd]

/-- C3 witness: a concrete empty pool with a successful concrete dial. -/
theorem C3_acquire_empty_dials_once_witness :
    (Pool.mk "tcp" "a" 1 []).buf = [] ∧
    ((Pool.mk "tcp" "a" 1 []).Get fun _ _ => Except.ok 5).dials = 1 ∧
    ((Pool.mk "tcp" "a" 1 []).Get fun _ _ => Except.ok 5).conn = some 5 ∧
    ((Pool.mk "tcp" "a" 1 []).Get fun _ _ => Except.ok 5).err = none :=
  have h := C3_acquire_empty_dials_once (Pool.mk "tcp" "a" 1 [])
    (fun _ _ => Except.ok 5) rfl
  ⟨rfl, h.1, by simpa using congrArg Prod.fst h.2.1,
    by simpa using congrArg Prod.snd h.2.1⟩

/-- C4: `Get` on a non-empty buffer returns the previously-buffered head
connection with nil error, performs no dial and closes nothing, leaving
the rest of the buffer in place. -/
theorem C4_acquire_nonempty_no_dial (p : Pool) (c : Conn) (rest : List Conn)
    (dial : String → String → Except Err Client) (h : p.buf = c :: rest) :
    (p.Get dial).conn = c ∧ (p.Get dial).err = none ∧
    (p.Get dial).dials = 0 ∧ (p.Get dial).pool = { p with buf := rest } ∧
    (p.Get dial).closed = [] := by
  simp [Pool.Get, h]

/-- C4 witness: a concrete one-element pool. -/
theorem C4_acquire_nonempty_no_dial_witness :
    (Pool.mk "tcp" "a" 1 [some 3]).buf = some 3 :: [] ∧
    ((Pool.mk "tcp" "a" 1 [some 3]).Get fun _ _ => Except.ok 5).conn = some 3 ∧
    ((Pool.mk "tcp" "a" 1 [some 3]).Get fun _ _ => Except.ok 5).dials = 0 :=
  have h := C4_acquire_nonempty_no_dial (Pool.mk "tcp" "a" 1 [some 3])
    (some 3) [] (fun _ _ => Except.ok 5) rfl
  ⟨rfl, h.1, h.2.2.1⟩

/-- C5: `CarefullyPut` equals `Put` when the error is nil or a
`*redis.CmdError`, and is a no-op on any other (connection-level) error,
so such a connection never enters the idle buffer. -/
theorem C5_carefully_put_classifies (p : Pool) (conn : Conn) (m m' : String)
    (h : conn ∉ p.buf) :
    p.CarefullyPut conn none = p.Put conn ∧
    p.CarefullyPut conn (some (Err.cmdError m)) = p.Put conn ∧
    p.CarefullyPut conn (some (Err.connError m')) = (p, []) ∧
    conn ∉ (p.CarefullyPut conn (some (Err.connError m'))).1.buf := by
  exact ⟨rfl, rfl, rfl, h⟩

/-- C5 witness: a concrete pool not containing the released connection. -/
theorem C5_carefully_put_classifies_witness :
    some 9 ∉ (Pool.mk "tcp" "a" 2 [some 1]).buf ∧
    (Pool.mk "tcp" "a" 2 [some 1]).CarefullyPut (some 9) none =
      (Pool.mk "tcp" "a" 2 [some 1]).Put (some 9) ∧
    (Pool.mk "tcp" "a" 2 [some 1]).CarefullyPut (some 9)
        (some (Err.connError "broken")) = (Pool.mk "tcp" "a" 2 [some 1], []) ∧
    some 9 ∉ ((Pool.mk "tcp" "a" 2 [some 1]).CarefullyPut (some 9)
        (some (Err.connError "broken"))).1.buf :=
  have h := C5_carefully_put_classifies (Pool.mk "tcp" "a" 2 [some 1])
    (some 9) "oops" "broken" (by decide)
  ⟨by decide, h.1, h.2.2.1, h.2.2.2⟩

/-- C6: `Put` buffers the connection (at the back of the queue) when the
buffer has spare capacity, and otherwise leaves the pool unchanged and
closes the connection; it is a total function returning no error. -/
theorem C6_release_buffers_or_closes (p : Pool) (conn : Conn) :
    (p.buf.length < p.capacity →
        p.Put conn = ({ p with buf := p.buf ++ [conn] }, [])) ∧
    (p.capacity ≤ p.buf.length → p.Put conn = (p, [conn])) := by
  constructor
  · intro h
    unfold Pool.Put
    rw [if_pos h]
  · intro h
    unfold Pool.Put
    rw [if_neg (by omega)]

/-- C6 witness: a pool with space and a full pool. -/
theorem C6_release_buffers_or_closes_witness :
    (Pool.mk "tcp" "a" 2 [some 1]).Put (some 2) =
      (Pool.mk "tcp" "a" 2 [some 1, some 2], []) ∧
    (Pool.mk "tcp" "a" 1 [some 1]).Put (some 2) =
      (Pool.mk "tcp" "a" 1 [some 1], [some 2]) :=
  ⟨(C6_release_buffers_or_closes (Pool.mk "tcp" "a" 2 [some 1]) (some 2)).1
      (by decide),
   (C6_release_buffers_or_closes (Pool.mk "tcp" "a" 1 [some 1]) (some 2)).2
      (by decide)⟩

/-- C7: `Empty` leaves the buffer empty (only `buf` changes), closes
exactly the connections that were idle at call time, is idempotent (a
second call changes nothing and closes nothing), and the pool stays
usable: the next `Get` dials a fresh connection. -/
theorem C7_empty_drains_and_closes (p : Pool)
    (dial : String → String → Except Err Client) :
    p.Empty.1 = { p with buf := [] } ∧
    p.Empty.2 = p.buf ∧
    p.Empty.1.Empty = (p.Empty.1, []) ∧
    (p.Empty.1.Get dial).dials = 1 := by
  refine ⟨rfl, rfl, rfl, ?_⟩
  cases hd : dial p.Network p.Addr with
  | ok c => simp [Pool.Get, Pool.Empty, hd]
  | error e => simp [Pool.Get, Pool.Empty, hd]

/-- C8: a successful `NewPool` yields a pool whose buffer holds exactly
`size` connections with capacity `size` and the given network/addr; on
failure `NewOrEmptyPool` yields the same-parameter pool with an empty
buffer, propagating no error. -/
theorem C8_construction_fills_or_empties (network addr : String) (size : Nat)
    (dials : Nat → Except Err Client) :
    (∀ p, NewPool network addr size dials = .ok p →
        p.buf.length = size ∧ p.capacity = size ∧
        p.Network = network ∧ p.Addr = addr) ∧
    (∀ e, NewPool network addr size dials = .error e →
        NewOrEmptyPool network addr size dials =
          { Network := network, Addr := addr, capacity := size, buf := [] }) := by
  constructor
  · intro p hp
    exact NewPool_ok_spec network addr size dials p hp
  · intro e he
    unfold NewOrEmptyPool
    rw [he]

/-- C8 witness: a successful size-2 construction and a failing one. -/
theorem C8_construction_fills_or_empties_witness :
    NewPool "tcp" "a" 2 (fun i => Except.ok i) =
      Except.ok (Pool.mk "tcp" "a" 2 [some 0, some 1]) ∧
    (Pool.mk "tcp" "a" 2 [some 0, some 1]).buf.length = 2 ∧
    NewPool "tcp" "a" 3 (fun _ => Except.error (Err.connError "down")) =
      Except.error (Err.connError "down") ∧
    NewOrEmptyPool "tcp" "a" 3 (fun _ => Except.error (Err.connError "down")) =
      Pool.mk "tcp" "a" 3 [] :=
  ⟨rfl,
   ((C8_construction_fills_or_empties "tcp" "a" 2 (fun i => Except.ok i)).1
      (Pool.mk "tcp" "a" 2 [some 0, some 1]) rfl).1,
   rfl,
   (C8_construction_fills_or_empties "tcp" "a" 3
      (fun _ => Except.error (Err.connError "down"))).2
      (Err.connError "down") rfl⟩

/-- C9: if the `i`-th eager dial fails with `e` (all earlier ones having
succeeded), `NewPool` returns that error and no pool. -/
theorem C9_construct_propagates_dial_error (network addr : String)
    (size i : Nat) (dials : Nat → Except Err Client) (e : Err)
    (hi : i < size) (hfail : dials i = .error e)
    (hok : ∀ j, j < i → ∃ c, dials j = .ok c) :
    NewPool network addr size dials = .error e := by
  unfold NewPool
  rw [dialLoop_error_of dials e size 0 i (Nat.zero_le i) (by omega) hfail
    (fun j _ hj2 => hok j hj2)]

/-- C9 witness: the second of two dials fails. -/
theorem C9_construct_propagates_dial_error_witness :
    (1 : Nat) < 2 ∧
    (fun j => if j = 0 then Except.ok 7 else Except.error (Err.connError "boom") :
      Nat → Except Err Client) 1 = Except.error (Err.connError "boom") ∧
    NewPool "tcp" "a" 2
        (fun j => if j = 0 then Except.ok 7 else Except.error (Err.connError "boom")) =
      Except.error (Err.connError "boom") :=
  ⟨by decide, rfl,
   C9_construct_propagates_dial_error "tcp" "a" 2 1
     (fun j => if j = 0 then Except.ok 7 else Except.error (Err.connError "boom"))
     (Err.connError "boom") (by decide) rfl
     (fun j hj => ⟨7, by
        have hj0 : j = 0 := by omega
        subst hj0
        rfl⟩)⟩

/-- C10: on a zero-capacity pool with an empty buffer, a `Get` whose dial
succeeds closes the freshly dialed connection (the careful-release path
finds the zero-capacity buffer full) and still returns that connection to
the caller with a nil error. -/
theorem C10_zero_capacity_returns_closed_conn (p : Pool) (c : Client)
    (dial : String → String → Except Err Client)
    (hcap : p.capacity = 0) (hbuf : p.buf = [])
    (hd : dial p.Network p.Addr = .ok c) :
    p.Get dial =
      { conn := some c, err := none, pool := p, closed := [some c], dials := 1 } := by
  simp [Pool.Get, hbuf, hd, Pool.CarefullyPut, Pool.Put, hcap]

/-- C10 witness: a concrete size-0 pool and a concrete successful dial. -/
theorem C10_zero_capacity_returns_closed_conn_witness :
    (Pool.mk "tcp" "a" 0 []).capacity = 0 ∧
    (Pool.mk "tcp" "a" 0 []).buf = [] ∧
    (Pool.mk "tcp" "a" 0 []).Get (fun _ _ => Except.ok 9) =
      { conn := some 9, err := none, pool := Pool.mk "tcp" "a" 0 [],
        closed := [some 9], dials := 1 } :=
  ⟨rfl, rfl,
   C10_zero_capacity_returns_closed_conn (Pool.mk "tcp" "a" 0 []) 9
     (fun _ _ => Except.ok 9) rfl rfl rfl⟩

end pool
